/-
Verification of the WallStreet market-simulation repository.

This file gives a shallow embedding, in Lean 4, of the parts of the code
that the specification's claims talk about:

* `FinancialAgent.transfer_funds` and `FinancialAgent.add_connection`
  (src/utils/base_agent.py),
* `MarketUtils.generate_price_series`, `MarketUtils.simulate_interest_rates`,
  `MarketUtils.calculate_market_liquidity`, `MarketUtils.simulate_market_shock`
  (src/utils/market_utils.py),
* `MarketSimulation._update_market_state`, `MarketSimulation._process_events`,
  `MarketSimulation._execute_regulatory_activities`
  (src/market_simulation.py).

Python floats are modelled as exact rationals (ℚ); the random draws the code
takes from `np.random` / `random` are passed in as explicit parameters, so
every statement quantifies over all possible draws.  Python's reference
semantics for agent objects is modelled by a store mapping agent ids to agent
records, so aliasing (a transfer whose recipient is the sender itself) is
represented faithfully.
-/
import Mathlib

namespace WallStreet

/-! ### Agents and fund transfers (src/utils/base_agent.py) -/

/-- An immutable transaction record, as built in `transfer_funds`
(base_agent.py lines 98-104).  `timestamp` models the opaque value returned
by `autogen.get_utc_time()`. -/
structure Transaction where
  source : ℕ
  dest : ℕ
  amount : ℚ
  description : String
  timestamp : ℕ
deriving Repr, DecidableEq

/-- The mutable per-agent state that `transfer_funds` touches: the balance
and the append-only transaction history (base_agent.py lines 64, 68). -/
structure Agent where
  balance : ℚ
  transaction_history : List Transaction
deriving Repr, DecidableEq

/-- A store of agents indexed by id: Python objects are references, so both
parties of a transfer are read from and written back to this shared store. -/
def Store : Type := ℕ → Agent

/-- Result of `transfer_funds`: the Python function returns
`(False, "转账金额必须为正数")` (invalid amount), `(False, "余额不足")`
(insufficient funds) or `(True, transaction)`. -/
inductive TransferResult where
  | invalidAmount : TransferResult
  | insufficientFunds : TransferResult
  | success : Transaction → TransferResult
deriving Repr, DecidableEq

/-- Shallow embedding of `FinancialAgent.transfer_funds`
(base_agent.py lines 85-109).  The sender is `self`; each read and write goes
through the store, mirroring Python's reference semantics step by step:
balance decrement of the sender, balance increment of the recipient, then one
history append for the sender and one for the recipient. -/
def transfer_funds (s : Store) (sender recipient : ℕ) (amount : ℚ)
    (description : String) (now : ℕ) : TransferResult × Store :=
  if amount ≤ 0 then
    (TransferResult.invalidAmount, s)
  else if (s sender).balance < amount then
    (TransferResult.insufficientFunds, s)
  else
    let s1 : Store := Function.update s sender
      { s sender with balance := (s sender).balance - amount }
    let s2 : Store := Function.update s1 recipient
      { s1 recipient with balance := (s1 recipient).balance + amount }
    let tx : Transaction :=
      { source := sender, dest := recipient, amount := amount,
        description := description, timestamp := now }
    let s3 : Store := Function.update s2 sender
      { s2 sender with
          transaction_history := (s2 sender).transaction_history ++ [tx] }
    let s4 : Store := Function.update s3 recipient
      { s3 recipient with
          transaction_history := (s3 recipient).transaction_history ++ [tx] }
    (TransferResult.success tx, s4)

/-- A concrete two-agent store used by witnesses: agent 0 holds balance 100,
every other agent holds balance 0, all histories empty. -/
def demoStore : Store := fun i =>
  if i = 0 then { balance := 100, transaction_history := [] }
  else { balance := 0, transaction_history := [] }

/-- C1: a transfer with positive amount not exceeding the sender's balance
succeeds, moves exactly `amount` from sender to recipient (their balance sum
is unchanged) and appends exactly one transaction carrying that amount to
both parties' histories. -/
theorem transfer_funds_success (s : Store) (sender recipient : ℕ) (amount : ℚ)
    (d : String) (now : ℕ) (hne : sender ≠ recipient) (hpos : 0 < amount)
    (hbal : amount ≤ (s sender).balance) :
    (∃ tx : Transaction,
      (transfer_funds s sender recipient amount d now).1
        = TransferResult.success tx ∧
      tx.amount = amount ∧
      ((transfer_funds s sender recipient amount d now).2
          sender).transaction_history
        = (s sender).transaction_history ++ [tx] ∧
      ((transfer_funds s sender recipient amount d now).2
          recipient).transaction_history
        = (s recipient).transaction_history ++ [tx]) ∧
    ((transfer_funds s sender recipient amount d now).2 sender).balance
      = (s sender).balance - amount ∧
    ((transfer_funds s sender recipient amount d now).2 recipient).balance
      = (s recipient).balance + amount ∧
    ((transfer_funds s sender recipient amount d now).2 sender).balance
        + ((transfer_funds s sender recipient amount d now).2 recipient).balance
      = (s sender).balance + (s recipient).balance := by
  have h1 : ¬ amount ≤ 0 := not_le.mpr hpos
  have h2 : ¬ (s sender).balance < amount := not_lt.mpr hbal
  refine ⟨⟨{ source := sender, dest := recipient, amount := amount,
             description := d, timestamp := now }, ?_, rfl, ?_, ?_⟩,
          ?_, ?_, ?_⟩ <;>
    simp [transfer_funds, h1, h2, Function.update_noteq, hne, hne.symm,
      Function.update_same]

/-- Witness for C1 at Scenario B: 50 moved from agent 0 (balance 100) to
agent 1 (balance 0). -/
theorem transfer_funds_success_witness :
    (∃ tx : Transaction,
      (transfer_funds demoStore 0 1 50 "" 7).1 = TransferResult.success tx ∧
      tx.amount = 50 ∧
      ((transfer_funds demoStore 0 1 50 "" 7).2 0).transaction_history
        = (demoStore 0).transaction_history ++ [tx] ∧
      ((transfer_funds demoStore 0 1 50 "" 7).2 1).transaction_history
        = (demoStore 1).transaction_history ++ [tx]) ∧
    ((transfer_funds demoStore 0 1 50 "" 7).2 0).balance
      = (demoStore 0).balance - 50 ∧
    ((transfer_funds demoStore 0 1 50 "" 7).2 1).balance
      = (demoStore 1).balance + 50 ∧
    ((transfer_funds demoStore 0 1 50 "" 7).2 0).balance
        + ((transfer_funds demoStore 0 1 50 "" 7).2 1).balance
      = (demoStore 0).balance + (demoStore 1).balance :=
  transfer_funds_success demoStore 0 1 50 "" 7 (by decide) (by norm_num)
    (by decide)

/-- C2: a transfer with amount ≤ 0 fails with the invalid-amount error and a
transfer with positive amount exceeding the sender's balance fails with the
insufficient-funds error; in both cases the store is returned unchanged, so
no balance moves and no transaction is recorded anywhere. -/
theorem transfer_funds_failure (s : Store) (sender recipient : ℕ) (amount : ℚ)
    (d : String) (now : ℕ) :
    (amount ≤ 0 →
      transfer_funds s sender recipient amount d now
        = (TransferResult.invalidAmount, s)) ∧
    (0 < amount → (s sender).balance < amount →
      transfer_funds s sender recipient amount d now
        = (TransferResult.insufficientFunds, s)) := by
  constructor
  · intro h
    simp [transfer_funds, h]
  · intro hpos hlt
    simp [transfer_funds, not_le.mpr hpos, hlt]

/-- Witness for C2: a transfer of −1 is rejected as invalid, and Scenario C's
transfer of 150 from a balance of 100 is rejected for insufficient funds; the
store is unchanged in both cases. -/
theorem transfer_funds_failure_witness :
    transfer_funds demoStore 0 1 (-1) "" 0
      = (TransferResult.invalidAmount, demoStore) ∧
    transfer_funds demoStore 0 1 150 "" 0
      = (TransferResult.insufficientFunds, demoStore) :=
  ⟨(transfer_funds_failure demoStore 0 1 (-1) "" 0).1 (by norm_num),
   (transfer_funds_failure demoStore 0 1 150 "" 0).2 (by norm_num) (by decide)⟩

/-- C10: a self-transfer with valid amount succeeds, leaves the balance
unchanged (the decrement and increment hit the same object) and appends the
same transaction record twice to the single party's history. -/
theorem transfer_funds_self (s : Store) (a : ℕ) (amount : ℚ) (d : String)
    (now : ℕ) (hpos : 0 < amount) (hbal : amount ≤ (s a).balance) :
    ∃ tx : Transaction,
      (transfer_funds s a a amount d now).1 = TransferResult.success tx ∧
      ((transfer_funds s a a amount d now).2 a).balance = (s a).balance ∧
      ((transfer_funds s a a amount d now).2 a).transaction_history
        = (s a).transaction_history ++ [tx, tx] := by
  have h1 : ¬ amount ≤ 0 := not_le.mpr hpos
  have h2 : ¬ (s a).balance < amount := not_lt.mpr hbal
  refine ⟨{ source := a, dest := a, amount := amount, description := d,
            timestamp := now }, ?_, ?_, ?_⟩ <;>
    simp [transfer_funds, h1, h2, Function.update_same]

/-- Witness for C10: agent 0 transfers 50 to itself; balance stays 100 and
its history gains the same record twice. -/
theorem transfer_funds_self_witness :
    ∃ tx : Transaction,
      (transfer_funds demoStore 0 0 50 "" 0).1 = TransferResult.success tx ∧
      ((transfer_funds demoStore 0 0 50 "" 0).2 0).balance
        = (demoStore 0).balance ∧
      ((transfer_funds demoStore 0 0 50 "" 0).2 0).transaction_history
        = (demoStore 0).transaction_history ++ [tx, tx] :=
  transfer_funds_self demoStore 0 50 "" 0 (by norm_num) (by decide)

/-! ### Connection graph (src/utils/base_agent.py, `add_connection`) -/

/-- The connection lists of all agents, indexed by agent id
(base_agent.py line 67: `self.connections = []`). -/
def Conns : Type := ℕ → List ℕ

/-- Shallow embedding of the mutually recursive
`FinancialAgent.add_connection` (base_agent.py lines 77-83).  The Python
method recurses into `other_agent.add_connection(self)`; the recursion is
modelled with explicit fuel, and `addConnectionFuel_ge_two` below shows fuel
2 already suffices, i.e. the mutual recursion terminates after one bounce. -/
def addConnectionFuel : ℕ → Conns → ℕ → ℕ → Conns
  | 0, c, _, _ => c
  | n + 1, c, a, b =>
    if b ∈ c a then c
    else
      let c1 := Function.update c a (c a ++ [b])
      if a ∈ c1 b then c1
      else addConnectionFuel n c1 b a

/-- `self.add_connection(other)` with enough fuel for the one-bounce
recursion. -/
def add_connection (c : Conns) (a b : ℕ) : Conns :=
  addConnectionFuel 2 c a b

/-- Closed form of one `add_connection` call: no-op when already connected,
a single self-append for a self-connection, and otherwise the inner
recursive call appends the back edge (its own inner check then stops,
because the forward edge is already present). -/
theorem add_connection_eq (c : Conns) (x y : ℕ) :
    add_connection c x y =
      if y ∈ c x then c
      else if x = y then Function.update c x (c x ++ [x])
      else if x ∈ c y then Function.update c x (c x ++ [y])
      else
        Function.update (Function.update c x (c x ++ [y])) y (c y ++ [x]) := by
  unfold add_connection
  by_cases h1 : y ∈ c x
  · simp [addConnectionFuel, h1]
  · by_cases hxy : x = y
    · subst hxy
      simp [addConnectionFuel, h1, Function.update_same]
    · have hyx : y ≠ x := fun h => hxy h.symm
      by_cases h2 : x ∈ c y
      · simp [addConnectionFuel, h1, hxy, h2, Function.update_noteq hyx]
      · simp [addConnectionFuel, h1, hxy, h2, Function.update_noteq hyx,
          Function.update_noteq hxy, Function.update_same]

/-- Symmetry invariant of the connection graph. -/
def SymmConns (c : Conns) : Prop :=
  ∀ a b : ℕ, b ∈ c a → a ∈ c b

/-- No-duplicates invariant: each id occurs at most once in any
connection list. -/
def AtMostOnce (c : Conns) : Prop :=
  ∀ a b : ℕ, (c a).count b ≤ 1

theorem add_connection_preserves (c : Conns) (hs : SymmConns c)
    (hd : AtMostOnce c) (x y : ℕ) :
    SymmConns (add_connection c x y) ∧ AtMostOnce (add_connection c x y) := by
  rw [add_connection_eq]
  by_cases h1 : y ∈ c x
  · simpa [h1] using ⟨hs, hd⟩
  · by_cases hxy : x = y
    · subst hxy
      have hxx : x ∉ c x := h1
      rw [if_neg h1, if_pos rfl]
      constructor
      · intro a b hab
        rcases eq_or_ne a x with rfl | hax
        · rw [Function.update_same] at hab
          rcases List.mem_append.mp hab with hb | hb

          · have hb' : b ≠ a := fun h => hxx (h ▸ hb)
            rw [Function.update_noteq hb']
            exact hs a b hb
          · have hb' : b = a := List.mem_singleton.mp hb
            subst hb'
            rw [Function.update_same]
            exact List.mem_append_right _ (List.mem_singleton.mpr rfl)
        · rw [Function.update_noteq hax] at hab
          rcases eq_or_ne b x with rfl | hbx
          · rw [Function.update_same]
            exact List.mem_append_left _ (hs a b hab)
          · rw [Function.update_noteq hbx]
            exact hs a b hab
      · intro a b
        rcases eq_or_ne a x with rfl | hax
        · rw [Function.update_same, List.count_append]
          rcases eq_or_ne b a with rfl | hba
          · have : (c b).count b = 0 := List.count_eq_zero.mpr hxx
            simp [this]
          · have : List.count b [a] = 0 := by
              simp [List.count_singleton', hba]
            simp only [this, Nat.add_zero]
            exact hd a b
        · rw [Function.update_noteq hax]
          exact hd a b
    · have hyx : y ≠ x := fun h => hxy h.symm
      have h2 : x ∉ c y := fun hm => h1 (hs y x hm)
      rw [if_neg h1, if_neg hxy, if_neg h2]
      set c' : Conns :=
        Function.update (Function.update c x (c x ++ [y])) y (c y ++ [x])
        with hc'
      have hc'y : c' y = c y ++ [x] := by
        rw [hc', Function.update_same]
      have hc'x : c' x = c x ++ [y] := by
        rw [hc', Function.update_noteq hxy, Function.update_same]
      have hc'other : ∀ a, a ≠ x → a ≠ y → c' a = c a := by
        intro a hax hay
        rw [hc', Function.update_noteq hay, Function.update_noteq hax]
      constructor
      · intro a b hab
        rcases eq_or_ne a y with rfl | hay
        · rw [hc'y] at hab
          rcases List.mem_append.mp hab with hb | hb
          · have hby := hs a b hb
            rcases eq_or_ne b a with rfl | hba
            · rw [hc'y]; exact List.mem_append_left _ hb
            · rcases eq_or_ne b x with rfl | hbx
              · exact absurd hb h2
              · rw [hc'other b hbx hba]; exact hby
          · have hb' : b = x := List.mem_singleton.mp hb
            subst hb'
            rw [hc'x]
            exact List.mem_append_right _ (List.mem_singleton.mpr rfl)
        · rcases eq_or_ne a x with rfl | hax
          · rw [hc'x] at hab
            rcases List.mem_append.mp hab with hb | hb
            · have hba := hs a b hb
              rcases eq_or_ne b y with rfl | hby
              · exact absurd hb h1
              · rcases eq_or_ne b a with rfl | hba'
                · rw [hc'x]; exact List.mem_append_left _ hba
                · rw [hc'other b hba' hby]; exact hba
            · have hb' : b = y := List.mem_singleton.mp hb
              subst hb'
              rw [hc'y]
              exact List.mem_append_right _ (List.mem_singleton.mpr rfl)
          · rw [hc'other a hax hay] at hab
            have hba := hs a b hab
            rcases eq_or_ne b x with rfl | hbx
            · rw [hc'x]; exact List.mem_append_left _ hba
            · rcases eq_or_ne b y with rfl | hby
              · rw [hc'y]; exact List.mem_append_left _ hba
              · rw [hc'other b hbx hby]; exact hba
      · intro a b
        rcases eq_or_ne a y with rfl | hay
        · rw [hc'y, List.count_append]
          rcases eq_or_ne b x with rfl | hbx
          · have : (c a).count b = 0 := List.count_eq_zero.mpr h2
            simp [this]
          · have : List.count b [x] = 0 := by
              simp [List.count_singleton', hbx]
            simp only [this, Nat.add_zero]
            exact hd a b
        · rcases eq_or_ne a x with rfl | hax
          · rw [hc'x, List.count_append]
            rcases eq_or_ne b y with rfl | hby
            · have : (c a).count b = 0 := List.count_eq_zero.mpr h1
              simp [this]
            · have : List.count b [y] = 0 := by
                simp [List.count_singleton', hby]
              simp only [this, Nat.add_zero]
              exact hd a b
          · rw [hc'other a hax hay]
            exact hd a b

/-- The empty connection state every agent starts from
(base_agent.py line 67). -/
def initConns : Conns := fun _ => []

/-- Replay of an arbitrary sequence of `add_connection` calls from the
initial, empty, connection state. -/
def runConnections (calls : List (ℕ × ℕ)) : Conns :=
  calls.foldl (fun c p => add_connection c p.1 p.2) initConns

theorem runConnections_inv (calls : List (ℕ × ℕ)) :
    SymmConns (runConnections calls) ∧ AtMostOnce (runConnections calls) := by
  suffices h : ∀ (l : List (ℕ × ℕ)) (c : Conns), SymmConns c → AtMostOnce c →
      SymmConns (l.foldl (fun c p => add_connection c p.1 p.2) c) ∧
      AtMostOnce (l.foldl (fun c p => add_connection c p.1 p.2) c) by
    refine h calls initConns ?_ ?_
    · intro a b hab; simp [initConns] at hab
    · intro a b; simp [initConns]
  intro l
  induction l with
  | nil => intro c hs hd; exact ⟨hs, hd⟩
  | cons p t ih =>
    intro c hs hd
    have := add_connection_preserves c hs hd p.1 p.2
    exact ih _ this.1 this.2

/-- C9: after any sequence of `add_connection` calls the connection relation
is symmetric, and no agent ever appears twice in another agent's connection
list (so a repeated `add_connection(A, B)` is a no-op and the mutual
recursion never duplicates an entry). -/
theorem add_connection_symm_no_dup (calls : List (ℕ × ℕ)) :
    (∀ a b : ℕ, b ∈ runConnections calls a → a ∈ runConnections calls b) ∧
    (∀ a b : ℕ, (runConnections calls a).count b ≤ 1) :=
  runConnections_inv calls

/-- Witness for C9: replaying the calls (0,1), (0,1), (1,0) yields the
symmetric pair and agent 1 appears exactly once in agent 0's list. -/
theorem add_connection_symm_no_dup_witness :
    (0 : ℕ) ∈ runConnections [(0, 1), (0, 1), (1, 0)] 1 ∧
    (runConnections [(0, 1), (0, 1), (1, 0)] 0).count 1 ≤ 1 :=
  ⟨(add_connection_symm_no_dup [(0, 1), (0, 1), (1, 0)]).1 0 1 (by decide),
   (add_connection_symm_no_dup [(0, 1), (0, 1), (1, 0)]).2 0 1⟩

/-! ### Market state evolution (src/market_simulation.py) -/

/-- The scalar macro-state vector (market_simulation.py lines 53-61). -/
structure MarketState where
  interest_rate : ℚ
  inflation_rate : ℚ
  market_volatility : ℚ
  liquidity_factor : ℚ
  market_sentiment : ℚ
  economic_growth : ℚ
  unemployment_rate : ℚ
deriving Repr, DecidableEq

/-- The seven zero-mean normal draws one call of `_update_market_state`
takes (market_simulation.py lines 212-229), passed in explicitly so every
statement quantifies over all possible draws. -/
structure Noise where
  dInterest : ℚ
  dInflation : ℚ
  dVolatility : ℚ
  dLiquidity : ℚ
  dSentiment : ℚ
  dGrowth : ℚ
  dUnemployment : ℚ
deriving Repr, DecidableEq

/-- Shallow embedding of `MarketSimulation._update_market_state`
(market_simulation.py lines 209-232): each field gets its own increment and
is clamped to its bound; `economic_growth` is the one field with no clamp. -/
def update_market_state (e : Noise) (s : MarketState) : MarketState :=
  { interest_rate := max (1/1000) (s.interest_rate + e.dInterest)
    inflation_rate := max 0 (s.inflation_rate + e.dInflation)
    market_volatility := max (1/100) (s.market_volatility + e.dVolatility)
    liquidity_factor := max (1/2) (min 2 (s.liquidity_factor + e.dLiquidity))
    market_sentiment := max (-1) (min 1 (s.market_sentiment + e.dSentiment))
    economic_growth := s.economic_growth + e.dGrowth
    unemployment_rate :=
      max (1/100) (min (1/5) (s.unemployment_rate + e.dUnemployment)) }

/-- The five event categories of `_process_events`
(market_simulation.py lines 238-244). -/
inductive EventType where
  | economic_news
  | political_event
  | natural_disaster
  | technology_breakthrough
  | regulatory_change
deriving Repr, DecidableEq

/-- The category-specific market-state effect of one event with magnitude
`m` (market_simulation.py lines 258-271). -/
def applyEventEffect (t : EventType) (m : ℚ) (s : MarketState) : MarketState :=
  match t with
  | EventType.economic_news =>
      { s with market_sentiment := s.market_sentiment + m * 2
               economic_growth := s.economic_growth + m * (1/100) }
  | EventType.political_event =>
      { s with market_volatility := s.market_volatility + |m| * (1/20)
               market_sentiment := s.market_sentiment + m }
  | EventType.natural_disaster =>
      { s with market_sentiment := s.market_sentiment - |m| * (1/2)
               economic_growth := s.economic_growth - |m| * (1/200) }
  | EventType.technology_breakthrough =>
      { s with market_sentiment := s.market_sentiment + |m|
               economic_growth := s.economic_growth + |m| * (1/500) }
  | EventType.regulatory_change =>
      { s with market_volatility := s.market_volatility + m * (1/50) }

/-- Shallow embedding of `MarketSimulation._process_events`
(market_simulation.py lines 234-277).  Whether an event fires, its category
and its magnitude are the random draws, passed in as an `Option`; when an
event fires, its effect is applied and then sentiment and volatility are
re-clamped (lines 274-275). -/
def process_events (ev : Option (EventType × ℚ)) (s : MarketState) :
    MarketState :=
  match ev with
  | none => s
  | some (t, m) =>
      let s1 := applyEventEffect t m s
      { s1 with
          market_sentiment := max (-1) (min 1 s1.market_sentiment)
          market_volatility := max (1/100) s1.market_volatility }

/-- Shallow embedding of the interest-rate policy rule of
`MarketSimulation._execute_regulatory_activities`
(market_simulation.py lines 291-309).  The stress-test and reporting cadence
checks (lines 282-288) only log and touch no state.  `centralBankPresent`
models whether an agent named 中央银行 exists in the registry. -/
def execute_regulatory_activities (day : ℕ) (centralBankPresent : Bool)
    (s : MarketState) : MarketState :=
  if day % 30 = 0 ∧ centralBankPresent = true then
    if s.inflation_rate > 1/25 then
      let rate_change := min (1/400) ((s.inflation_rate - 1/50) * (1/10))
      { s with interest_rate := s.interest_rate + rate_change }
    else if s.economic_growth < 1/100 then
      let rate_change := min (1/400) ((1/50 - s.economic_growth) * (1/10))
      { s with interest_rate := max (1/1000) (s.interest_rate - rate_change) }
    else s
  else s

/-- All random draws one simulated day consumes in the three market-state
steps of `run_simulation` (market_simulation.py lines 186-193). -/
structure DayInput where
  noise : Noise
  event : Option (EventType × ℚ)
  centralBankPresent : Bool

/-- One simulated day's market-state pipeline, in the order `run_simulation`
executes it: perturbation step, then event step, then regulatory step. -/
def simulateDay (day : ℕ) (inp : DayInput) (s : MarketState) : MarketState :=
  execute_regulatory_activities day inp.centralBankPresent
    (process_events inp.event (update_market_state inp.noise s))

/-- Run the market-state pipeline for a sequence of days, the first one
numbered `startDay`. -/
def runDays (s0 : MarketState) (inputs : List DayInput) (startDay : ℕ) :
    MarketState :=
  match inputs with
  | [] => s0
  | inp :: rest => runDays (simulateDay startDay inp s0) rest (startDay + 1)

/-- The bounds the specification declares for the market-state fields. -/
def boundsOK (s : MarketState) : Prop :=
  1/1000 ≤ s.interest_rate ∧ 0 ≤ s.inflation_rate ∧
  1/100 ≤ s.market_volatility ∧
  1/2 ≤ s.liquidity_factor ∧ s.liquidity_factor ≤ 2 ∧
  -1 ≤ s.market_sentiment ∧ s.market_sentiment ≤ 1 ∧
  1/100 ≤ s.unemployment_rate ∧ s.unemployment_rate ≤ 1/5

instance (s : MarketState) : Decidable (boundsOK s) := by
  unfold boundsOK; infer_instance

theorem update_market_state_boundsOK (e : Noise) (s : MarketState) :
    boundsOK (update_market_state e s) :=
  ⟨le_max_left _ _, le_max_left _ _, le_max_left _ _, le_max_left _ _,
   max_le (by norm_num) (min_le_left _ _), le_max_left _ _,
   max_le (by norm_num) (min_le_left _ _), le_max_left _ _,
   max_le (by norm_num) (min_le_left _ _)⟩

theorem process_events_boundsOK (ev : Option (EventType × ℚ))
    (s : MarketState) (hs : boundsOK s) : boundsOK (process_events ev s) := by
  match ev with
  | none => exact hs
  | some (t, m) =>
      obtain ⟨h1, h2, h3, h4, h5, h6, h7, h8, h9⟩ := hs
      cases t <;>
        exact ⟨h1, h2, le_max_left _ _, h4, h5, le_max_left _ _,
          max_le (by norm_num) (min_le_left _ _), h8, h9⟩

theorem execute_regulatory_boundsOK (day : ℕ) (cb : Bool) (s : MarketState)
    (hs : boundsOK s) : boundsOK (execute_regulatory_activities day cb s) := by
  obtain ⟨h1, h2, h3, h4, h5, h6, h7, h8, h9⟩ := hs
  unfold execute_regulatory_activities
  split
  · split
    · refine ⟨?_, h2, h3, h4, h5, h6, h7, h8, h9⟩
      have hm : (0 : ℚ) ≤ min (1/400) ((s.inflation_rate - 1/50) * (1/10)) := by
        rename_i hinf
        have : (1/25 : ℚ) < s.inflation_rate := hinf
        refine le_min (by norm_num) ?_
        nlinarith
      calc (1/1000 : ℚ) ≤ s.interest_rate := h1
        _ ≤ _ := le_add_of_nonneg_right hm
    · split
      · exact ⟨le_max_left _ _, h2, h3, h4, h5, h6, h7, h8, h9⟩
      · exact ⟨h1, h2, h3, h4, h5, h6, h7, h8, h9⟩
  · exact ⟨h1, h2, h3, h4, h5, h6, h7, h8, h9⟩

theorem simulateDay_boundsOK (day : ℕ) (inp : DayInput) (s : MarketState) :
    boundsOK (simulateDay day inp s) :=
  execute_regulatory_boundsOK _ _ _
    (process_events_boundsOK _ _ (update_market_state_boundsOK _ _))

/-- C3: at the end of every simulated day — after the perturbation step, the
event step and the regulatory step, for any number of days, any initial
state and any random draws — every market-state field satisfies its declared
bound. -/
theorem market_state_bounds (s0 : MarketState) (inputs : List DayInput)
    (k : ℕ) (hk : k < inputs.length) :
    boundsOK (runDays s0 (inputs.take (k + 1)) 0) := by
  have main : ∀ (l : List DayInput) (s : MarketState) (d : ℕ), l ≠ [] →
      boundsOK (runDays s l d) := by
    intro l
    induction l with
    | nil => intro s d h; exact absurd rfl h
    | cons inp rest ih =>
        intro s d _
        match rest with
        | [] => exact simulateDay_boundsOK d inp s
        | r :: rs =>
            exact ih (simulateDay d inp s) (d + 1) (by simp)
  refine main _ s0 0 ?_
  have : 0 < (inputs.take (k + 1)).length := by
    rw [List.length_take]
    omega
  exact List.ne_nil_of_length_pos this

/-- The initial market state of `MarketSimulation.__init__`
(market_simulation.py lines 53-61) with the default `MARKET_PARAMS`. -/
def initialMarketState : MarketState :=
  { interest_rate := 1/50, inflation_rate := 3/100, market_volatility := 3/20,
    liquidity_factor := 1, market_sentiment := 0, economic_growth := 1/50,
    unemployment_rate := 1/20 }

/-- Witness for C3: one zero-noise, event-free day from the initial state
stays within bounds. -/
theorem market_state_bounds_witness :
    boundsOK (runDays initialMarketState
      ([⟨⟨0, 0, 0, 0, 0, 0, 0⟩, none, true⟩].take (0 + 1)) 0) :=
  market_state_bounds initialMarketState
    [⟨⟨0, 0, 0, 0, 0, 0, 0⟩, none, true⟩] 0 (by decide)

/-- C6: on a day divisible by 30 with the central bank present, if inflation
exceeds 0.04 the rate is raised by exactly min(0.0025, (inflation − 0.02) ×
0.1) — a strict increase — and nothing else changes (the growth branch is
not evaluated); otherwise, if growth is below 0.01, the rate is lowered by
min(0.0025, (0.02 − growth) × 0.1) floored at 0.001; otherwise nothing
changes.  At most one branch fires. -/
theorem regulatory_rate_rule (day : ℕ) (s : MarketState)
    (hday : day % 30 = 0) :
    (s.inflation_rate > 1/25 →
      execute_regulatory_activities day true s
        = { s with interest_rate := s.interest_rate + min (1/400) ((s.inflation_rate - 1/50) * (1/10)) } ∧
      s.interest_rate
        < (execute_regulatory_activities day true s).interest_rate) ∧
    (¬ s.inflation_rate > 1/25 → s.economic_growth < 1/100 →
      execute_regulatory_activities day true s
        = { s with interest_rate := max (1/1000) (s.interest_rate - min (1/400) ((1/50 - s.economic_growth) * (1/10))) }) ∧
    (¬ s.inflation_rate > 1/25 → ¬ s.economic_growth < 1/100 →
      execute_regulatory_activities day true s = s) := by
  refine ⟨?_, ?_, ?_⟩
  · intro hinf
    have heq : execute_regulatory_activities day true s
        = { s with interest_rate := s.interest_rate + min (1/400) ((s.inflation_rate - 1/50) * (1/10)) } := by
      unfold execute_regulatory_activities
      rw [if_pos ⟨hday, rfl⟩, if_pos hinf]
    refine ⟨heq, ?_⟩
    rw [heq]
    have hm : (0 : ℚ) < min (1/400) ((s.inflation_rate - 1/50) * (1/10)) := by
      refine lt_min (by norm_num) ?_
      nlinarith
    simpa using hm
  · intro hinf hgr
    unfold execute_regulatory_activities
    rw [if_pos ⟨hday, rfl⟩, if_neg hinf, if_pos hgr]
  · intro hinf hgr
    unfold execute_regulatory_activities
    rw [if_pos ⟨hday, rfl⟩, if_neg hinf, if_neg hgr]

/-- The Scenario E state: inflation 0.05, growth 0.02, other fields at their
initial values. -/
def scenarioEState : MarketState :=
  { initialMarketState with inflation_rate := 1/20 }

/-- Witness for C6 at Scenario E: with inflation 0.05 and growth 0.02 on day
0 the inflation branch fires and the interest rate strictly increases. -/
theorem regulatory_rate_rule_witness :
    execute_regulatory_activities 0 true scenarioEState
      = { scenarioEState with interest_rate := scenarioEState.interest_rate + min (1/400) ((scenarioEState.inflation_rate - 1/50) * (1/10)) } ∧
    scenarioEState.interest_rate
      < (execute_regulatory_activities 0 true scenarioEState).interest_rate :=
  (regulatory_rate_rule 0 scenarioEState (by decide)).1 (by norm_num [scenarioEState, initialMarketState])

/-! ### Stochastic process library (src/utils/market_utils.py)

Both `generate_price_series` and `simulate_interest_rates` build their value
array and then wrap it in `pd.Series(values, index=date_range)`, where the
index is `pd.date_range(start = now − days·1day, end = now, freq='D')`.
That date range contains BOTH endpoints, hence `days + 1` timestamps, while
the value array has `days` entries; `pd.Series` raises `ValueError: Length
of values does not match length of index` whenever the two lengths differ.
`mkSeries` models that constructor, with `none` for the raised exception. -/

/-- Number of timestamps of `pd.date_range(now − days·1day, now, freq='D')`:
the grid `start, start+1d, …, start+days·1d = end` has `days + 1` points. -/
def dateRangeLength (days : ℕ) : ℕ := days + 1

/-- The `pd.Series(values, index)` constructor: raises (modelled as `none`)
unless the value array and the index have the same length. -/
def mkSeries (values : List ℚ) (indexLength : ℕ) : Option (List ℚ) :=
  if values.length = indexLength then some values else none

/-- Running products of a list, as `numpy.cumprod`. -/
def cumprodFrom (acc : ℚ) : List ℚ → List ℚ
  | [] => []
  | x :: xs => (acc * x) :: cumprodFrom (acc * x) xs

/-- Cumulative product of the per-step multipliers. -/
def cumprod (l : List ℚ) : List ℚ := cumprodFrom 1 l

/-- The value array of `MarketUtils.generate_price_series`
(market_utils.py lines 44-46): per-step multipliers are
`np.random.normal(drift, volatility, days) + 1`, written here as
`drift + volatility * z i + 1` for standard-normal draws `z`, and the prices
are `initial_price` times their cumulative product. -/
def priceValues (initial_price : ℚ) (days : ℕ) (volatility drift : ℚ)
    (z : ℕ → ℚ) : List ℚ :=
  (cumprod ((List.range days).map
    (fun i => drift + volatility * z i + 1))).map
    (fun p => initial_price * p)

/-- Shallow embedding of `MarketUtils.generate_price_series`
(market_utils.py lines 15-48): value array of length `days`, date index of
length `days + 1`, glued by the `pd.Series` constructor. -/
def generate_price_series (initial_price : ℚ) (days : ℕ)
    (volatility drift : ℚ) (z : ℕ → ℚ) : Option (List ℚ) :=
  mkSeries (priceValues initial_price days volatility drift z)
    (dateRangeLength days)

theorem cumprodFrom_length (acc : ℚ) (l : List ℚ) :
    (cumprodFrom acc l).length = l.length := by
  induction l generalizing acc with
  | nil => rfl
  | cons x xs ih => simp [cumprodFrom, ih]

theorem priceValues_length (initial_price : ℚ) (days : ℕ)
    (volatility drift : ℚ) (z : ℕ → ℚ) :
    (priceValues initial_price days volatility drift z).length = days := by
  simp [priceValues, cumprod, cumprodFrom_length]

/-- C4: `generate_price_series` never returns a series — the value array has
`days` entries but the date index has `days + 1`, so `pd.Series` raises
`ValueError` for every input; in particular Scenario A crashes.  Yet the
value array the function computes before crashing is exactly the claimed
[100, 100, 100] for `initial_price=100, days=3, volatility=0, drift=0` and
any draws. -/
theorem generate_price_series_raises :
    (∀ (initial_price volatility drift : ℚ) (days : ℕ) (z : ℕ → ℚ),
      generate_price_series initial_price days volatility drift z = none) ∧
    (∀ z : ℕ → ℚ, priceValues 100 3 0 0 z = [100, 100, 100]) := by
  constructor
  · intro initial_price volatility drift days z
    simp [generate_price_series, mkSeries, priceValues_length, dateRangeLength]
  · intro z
    simp [priceValues, cumprod, cumprodFrom, List.range_succ]

/-- One step of the Vasicek recursion of `simulate_interest_rates`
(market_utils.py lines 283-284): increment
`mean_reversion * (long_term_mean − r) + volatility * normal()`, result
floored at 0.001. -/
def vasicekStep (mean_reversion long_term_mean volatility : ℚ) (z r : ℚ) :
    ℚ :=
  max (1/1000) (r + (mean_reversion * (long_term_mean - r) + volatility * z))

/-- The list `r :: (n further Vasicek steps)`, with draws `z k, z (k+1), …`. -/
def ratesFrom (volatility mean_reversion long_term_mean : ℚ) (z : ℕ → ℚ) :
    ℕ → ℕ → ℚ → List ℚ
  | 0, _, r => [r]
  | n + 1, k, r =>
      r :: ratesFrom volatility mean_reversion long_term_mean z n (k + 1)
        (vasicekStep mean_reversion long_term_mean volatility (z k) r)

/-- The value list of `simulate_interest_rates`
(market_utils.py lines 281-285): `rates = [initial_rate]` followed by one
Vasicek step per iteration of `range(1, days)` — so `days` entries when
`days ≥ 1` (and the unclamped `initial_rate` first). -/
def ratesList (initial_rate : ℚ) (days : ℕ)
    (volatility mean_reversion long_term_mean : ℚ) (z : ℕ → ℚ) : List ℚ :=
  ratesFrom volatility mean_reversion long_term_mean z (days - 1) 1
    initial_rate

/-- Shallow embedding of `MarketUtils.simulate_interest_rates`
(market_utils.py lines 249-287): value list of length `days` (for
`days ≥ 1`), date index of length `days + 1`, glued by `pd.Series`. -/
def simulate_interest_rates (initial_rate : ℚ) (days : ℕ)
    (volatility mean_reversion long_term_mean : ℚ) (z : ℕ → ℚ) :
    Option (List ℚ) :=
  mkSeries (ratesList initial_rate days volatility mean_reversion
    long_term_mean z) (dateRangeLength days)

theorem ratesFrom_length (volatility mean_reversion long_term_mean : ℚ)
    (z : ℕ → ℚ) (n k : ℕ) (r : ℚ) :
    (ratesFrom volatility mean_reversion long_term_mean z n k r).length
      = n + 1 := by
  induction n generalizing k r with
  | zero => rfl
  | succ n ih => simp [ratesFrom, ih]

/-- C5: for every `days ≥ 1` the value list of `simulate_interest_rates` has
`days` entries but the date index has `days + 1`, so `pd.Series` raises
`ValueError`; in particular Scenario D (`days = 1`) crashes instead of
returning the length-1 series.  The value list computed before crashing for
Scenario D is the claimed `[initial_rate]`. -/
theorem simulate_interest_rates_raises :
    (∀ (initial_rate volatility mean_reversion long_term_mean : ℚ)
      (days : ℕ) (z : ℕ → ℚ), 1 ≤ days →
      simulate_interest_rates initial_rate days volatility mean_reversion
        long_term_mean z = none) ∧
    (∀ z : ℕ → ℚ, ratesList (1/50) 1 (1/2000) (1/100) (3/100) z
      = [1/50]) := by
  constructor
  · intro initial_rate volatility mean_reversion long_term_mean days z hdays
    have hlen : (ratesList initial_rate days volatility mean_reversion
        long_term_mean z).length = days := by
      rw [ratesList, ratesFrom_length]
      omega
    simp [simulate_interest_rates, mkSeries, hlen, dateRangeLength]
  · intro z
    rfl

/-- Witness for C5 at Scenario D with the code's default parameters: the
call raises (returns `none`) even though its value list is `[0.02]`. -/
theorem simulate_interest_rates_raises_witness :
    simulate_interest_rates (1/50) 1 (1/2000) (1/100) (3/100) (fun _ => 0)
      = none ∧
    ratesList (1/50) 1 (1/2000) (1/100) (3/100) (fun _ => 0) = [1/50] :=
  ⟨simulate_interest_rates_raises.1 (1/50) (1/2000) (1/100) (3/100) 1
     (fun _ => 0) (by decide),
   simulate_interest_rates_raises.2 (fun _ => 0)⟩

/-- An order book: bid and ask levels as (price, volume) pairs, best level
first, as produced by `generate_order_book` (market_utils.py lines 177-219). -/
structure OrderBook where
  bids : List (ℚ × ℕ)
  asks : List (ℚ × ℕ)
deriving Repr, DecidableEq

/-- Shallow embedding of `MarketUtils.calculate_market_liquidity`
(market_utils.py lines 221-247).  `none` models the `float('inf')` sentinel
returned when `spread > 0` fails.  With an empty ask list the Python code
sets `best_ask = float('inf')`, making the spread infinite and the quotient
`(bid_volume + ask_volume) / inf` exactly `0.0`, modelled by `some 0`. -/
def calculate_market_liquidity (order_book : OrderBook) : Option ℚ :=
  let bid_volume : ℕ := (order_book.bids.map Prod.snd).sum
  let ask_volume : ℕ := (order_book.asks.map Prod.snd).sum
  match order_book.asks with
  | [] => some 0
  | (a, _) :: _ =>
      let best_bid : ℚ := match order_book.bids with
        | [] => 0
        | (b, _) :: _ => b
      let spread := a - best_bid
      if spread > 0 then some (((bid_volume : ℚ) + (ask_volume : ℚ)) / spread)
      else none

theorem calculate_market_liquidity_cons (bp : ℚ) (bv : ℕ)
    (bs : List (ℚ × ℕ)) (ap : ℚ) (av : ℕ) (ks : List (ℚ × ℕ)) :
    calculate_market_liquidity { bids := (bp, bv) :: bs, asks := (ap, av) :: ks }
      = if ap - bp > 0
        then some ((((((bp, bv) :: bs).map Prod.snd).sum : ℚ)
          + ((((ap, av) :: ks).map Prod.snd).sum : ℚ)) / (ap - bp))
        else none := rfl

/-- Counterexample to C7: on the crossed book with best bid 10 and best ask
9 the function returns the infinite sentinel although the best ask does not
equal the best bid — the code tests `spread > 0`, not `spread ≠ 0`. -/
theorem market_liquidity_claim_false :
    calculate_market_liquidity { bids := [(10, 5)], asks := [(9, 5)] }
      = none ∧
    (9 : ℚ) ≠ 10 := by
  constructor
  · rw [calculate_market_liquidity_cons, if_neg (by norm_num)]
  · norm_num

/-- C7 as amended: for non-empty bid and ask lists the infinite sentinel is
returned iff the best ask is at most the best bid (spread ≤ 0), and for a
positive spread the result is the total volume divided by the spread. -/
theorem market_liquidity_spread_rule (b : ℚ × ℕ) (bs : List (ℚ × ℕ))
    (a : ℚ × ℕ) (ks : List (ℚ × ℕ)) :
    (calculate_market_liquidity { bids := b :: bs, asks := a :: ks } = none
      ↔ a.1 ≤ b.1) ∧
    (b.1 < a.1 →
      calculate_market_liquidity { bids := b :: bs, asks := a :: ks }
        = some (((((b :: bs).map Prod.snd).sum : ℚ)
            + (((a :: ks).map Prod.snd).sum : ℚ)) / (a.1 - b.1))) := by
  obtain ⟨ap, av⟩ := a
  obtain ⟨bp, bv⟩ := b
  rw [calculate_market_liquidity_cons]
  by_cases h : ap - bp > 0
  · rw [if_pos h]
    refine ⟨⟨fun hc => absurd hc (by simp), fun hle => ?_⟩, fun _ => rfl⟩
    exact absurd h (by simp only [not_lt]; linarith)
  · rw [if_neg h]
    refine ⟨⟨fun _ => by linarith [not_lt.mp h], fun _ => rfl⟩,
      fun hlt => absurd (by simp only [gt_iff_lt]; linarith : ap - bp > 0) h⟩

/-- Witness for C7's amended statement: best bid 10, best ask 11, volumes 5
and 7 give liquidity (5 + 7) / 1 = 12; the sentinel is not returned. -/
theorem market_liquidity_spread_rule_witness :
    calculate_market_liquidity { bids := [(10, 5)], asks := [(11, 7)] }
      = some 12 := by
  have h := (market_liquidity_spread_rule (10, 5) [] (11, 7) []).2
    (by norm_num)
  norm_num at h
  exact h

/-- The per-index price adjustment of `simulate_market_shock`
(market_utils.py lines 118-126): the shocked day is multiplied by
`1 + shock_magnitude`; each later day `i` keeps
`remaining_shock = shock_magnitude * (1 - recovery_factor)` with
`recovery_factor = min 1 (days_since_shock / recovery_days *
recovery_strength)`; earlier days are unchanged. -/
def shockPrice (shock_magnitude recovery_strength : ℚ)
    (recovery_days shock_idx i : ℕ) (p : ℚ) : ℚ :=
  if i = shock_idx then p * (1 + shock_magnitude)
  else if shock_idx < i then
    let recovery_factor :=
      min 1 (((i - shock_idx : ℕ) : ℚ) / (recovery_days : ℚ)
        * recovery_strength)
    let remaining_shock := shock_magnitude * (1 - recovery_factor)
    p * (1 + remaining_shock)
  else p

/-- Apply `shockPrice` to every element, threading the index. -/
def shockMap (shock_magnitude recovery_strength : ℚ)
    (recovery_days shock_idx : ℕ) : ℕ → List ℚ → List ℚ
  | _, [] => []
  | i, p :: ps =>
      shockPrice shock_magnitude recovery_strength recovery_days shock_idx i p
        :: shockMap shock_magnitude recovery_strength recovery_days shock_idx
          (i + 1) ps

/-- Shallow embedding of `MarketUtils.simulate_market_shock`
(market_utils.py lines 93-128) for a daily-indexed series: the shock index
`prices.index.get_indexer([last − recovery_days·1day], 'nearest')` is the
exact hit `length − 1 − recovery_days` when `recovery_days < length`, and
clamps to 0 otherwise — which is what truncated ℕ subtraction gives.  Every
adjusted value is computed from the original `prices`, as in the Python
loop. -/
def simulate_market_shock (prices : List ℚ) (shock_magnitude : ℚ)
    (recovery_days : ℕ) (recovery_strength : ℚ) : List ℚ :=
  shockMap shock_magnitude recovery_strength recovery_days
    (prices.length - 1 - recovery_days) 0 prices

/-- Counterexample to C8: shocking the constant series [1, 1, 1, 1] by
+100% with `recovery_days = 2` and `recovery_strength = 0.7` leaves a final
price of 1.3 — the residual multiplicative effect at the series end is
`shock_magnitude * (1 - 0.7) = 0.3`, not zero. -/
theorem market_shock_claim_false :
    (simulate_market_shock [1, 1, 1, 1] 1 2 (7/10)).getLast? = some (13/10)
      ∧ (13/10 : ℚ) ≠ 1 := by
  constructor
  · norm_num [simulate_market_shock, shockMap, shockPrice, min_def]
  · norm_num

theorem shockMap_length (m rs : ℚ) (rd si : ℕ) (k : ℕ) (l : List ℚ) :
    (shockMap m rs rd si k l).length = l.length := by
  induction l generalizing k with
  | nil => rfl
  | cons p ps ih => simp [shockMap, ih]

theorem shockMap_getElem (m rs : ℚ) (rd si : ℕ) (k : ℕ) (l : List ℚ)
    (j : ℕ) :
    (shockMap m rs rd si k l)[j]?
      = (l[j]?).map (shockPrice m rs rd si (k + j)) := by
  induction l generalizing k j with
  | nil => simp [shockMap]
  | cons p ps ih =>
      cases j with
      | zero => simp [shockMap]
      | succ j =>
          have : k + (j + 1) = (k + 1) + j := by omega
          simp [shockMap, ih (k + 1) j, this]

/-- C8 as amended: for a daily series longer than `recovery_days ≥ 1`, the
element at index `length − 1 − recovery_days` (the day `recovery_days`
before the series end) is multiplied by `1 + shock_magnitude`, and the
residual multiplicative effect at the last element is
`shock_magnitude * (1 − min 1 recovery_strength)` — zero only when
`recovery_strength ≥ 1`, not in general. -/
theorem market_shock_residual (prices : List ℚ) (mag : ℚ) (rd : ℕ) (rs : ℚ)
    (h1 : 1 ≤ rd) (h2 : rd + 1 ≤ prices.length) :
    (simulate_market_shock prices mag rd rs)[prices.length - 1 - rd]?
      = (prices[prices.length - 1 - rd]?).map (fun p => p * (1 + mag)) ∧
    (simulate_market_shock prices mag rd rs).getLast?
      = (prices.getLast?).map
          (fun p => p * (1 + mag * (1 - min 1 rs))) := by
  constructor
  · rw [simulate_market_shock, shockMap_getElem]
    cases hx : prices[prices.length - 1 - rd]? <;>
      simp [shockPrice]
  · have hlast : ∀ l : List ℚ, l.getLast? = l[l.length - 1]? := by
      intro l
      cases l with
      | nil => rfl
      | cons x xs => rw [List.getLast?_eq_getElem?]
    rw [hlast, hlast, simulate_market_shock, shockMap_length,
      shockMap_getElem]
    have hne : (0 : ℕ) + (prices.length - 1) ≠ prices.length - 1 - rd := by
      omega
    have hlt : prices.length - 1 - rd < 0 + (prices.length - 1) := by omega
    have hsub :
        ((0 + (prices.length - 1) - (prices.length - 1 - rd) : ℕ) : ℚ)
          = (rd : ℚ) := by
      congr 1
      omega
    have hrd : ((rd : ℕ) : ℚ) ≠ 0 := Nat.cast_ne_zero.mpr (by omega)
    cases hx : prices[prices.length - 1]? with
    | none => rfl
    | some p =>
        simp only [Option.map_some', shockPrice]
        rw [if_neg hne, if_pos hlt, hsub, div_self hrd, one_mul]

/-- Witness for C8's amended statement: for the series [1, 1, 1, 1] with
shock +100%, recovery over 2 days at strength 0.7, the shocked index is
doubled and the final price keeps the residual factor 1 + 1·(1 − 0.7). -/
theorem market_shock_residual_witness :
    (simulate_market_shock [1, 1, 1, 1] 1 2
        (7/10))[([1, 1, 1, 1] : List ℚ).length - 1 - 2]?
      = ((([1, 1, 1, 1] :
          List ℚ)[([1, 1, 1, 1] : List ℚ).length - 1 - 2]?).map
          (fun p => p * (1 + 1))) ∧
    (simulate_market_shock [1, 1, 1, 1] 1 2 (7/10)).getLast?
      = (([1, 1, 1, 1] : List ℚ).getLast?).map
          (fun p => p * (1 + 1 * (1 - min 1 (7/10)))) :=
  market_shock_residual [1, 1, 1, 1] 1 2 (7/10) (by decide) (by decide)

end WallStreet
